import Mathlib

/-!
Verification of the content-synchronization pipeline of the SRC-Backend
repository, shallowly embedded in Lean 4.

Conventions of the embedding:
* JavaScript error objects are modelled by the structure `RetryUtil.JsError`;
  absent fields are `Option.none`, and JavaScript truthiness of a string or
  numeric field is modelled explicitly (`""` and `0` are falsy).
* Asynchronous operations that may throw are modelled as `Except` values;
  external collaborators (the content source, the embedding provider, the
  store) are oracles passed in as function parameters.
* Where the source code consults a wall clock (`new Date()`), the current
  time is a parameter, making the functions pure.
* Machine numbers that the claims touch are small counters and lengths, so
  they are modelled as `Nat`/`Int` directly; no overflow is reachable in the
  modelled code paths.
-/

namespace RetryUtil

/-- Model of a JavaScript error value as consumed by
`src/backend/utils/retry.js`: the `message` field plus the optional
`status`, `statusCode`, `error_code` and `error_message` fields that
`categorizeError` and `isRetryableError` inspect. -/
structure JsError where
  message : String
  status : Option Nat := none
  statusCode : Option Nat := none
  error_code : Option String := none
  error_message : Option String := none
deriving DecidableEq, Repr

/-- JavaScript truthiness of an optional string field (absent and `""` are
falsy). -/
def truthyOptStr : Option String → Bool
  | some s => s ≠ ""
  | none => false

/-- JavaScript `a || b` on optional numeric fields: `a` is kept when present
and nonzero, otherwise `b` is used (`0` is falsy). -/
def jsOrNat : Option Nat → Option Nat → Option Nat
  | some n, b => if n = 0 then b else some n
  | none, b => b

/-- The value of `error.status || error.statusCode` in `retry.js`. -/
def selStatus (e : JsError) : Option Nat :=
  jsOrNat e.status e.statusCode

/-- JavaScript `String.prototype.toLowerCase`, modelled on the character
list (the messages involved are ASCII). -/
def jsToLower (s : String) : String :=
  ⟨s.data.map Char.toLower⟩

/-- JavaScript `String.prototype.includes sub`: some offset of `s` starts
with `sub`. -/
def strIncludes (s sub : String) : Bool :=
  (List.range (s.data.length + 1)).any (fun i => sub.data.isPrefixOf (s.data.drop i))

/-- `error.status >= k` in JavaScript: `false` when the field is absent
(`undefined >= k` is `false`), the numeric comparison otherwise. -/
def statusGE (o : Option Nat) (k : Nat) : Bool :=
  match o with
  | some n => k ≤ n
  | none => false

/-- The message-pattern tail of `categorizeError` (`retry.js` lines
170-217): lowercase the message and test the known substrings in the
source's order. -/
def categorizeByMessage (e : JsError) : String :=
  let m := jsToLower e.message
  if strIncludes m "timeout" || strIncludes m "etimedout" then "TIMEOUT"
  else if strIncludes m "network" || strIncludes m "connection" ||
      strIncludes m "econnreset" || strIncludes m "enotfound" ||
      strIncludes m "socket hang up" then "NETWORK"
  else if strIncludes m "unauthorized" || strIncludes m "authentication" then "AUTHENTICATION"
  else if strIncludes m "forbidden" || strIncludes m "permission" then "AUTHORIZATION"
  else if strIncludes m "not found" then "NOT_FOUND"
  else if strIncludes m "validation" || strIncludes m "invalid" then "VALIDATION"
  else if strIncludes m "rate limit" || strIncludes m "too many requests" then "RATE_LIMIT"
  else "UNKNOWN"

/-- The HTTP-status tier of `categorizeError` (`retry.js` lines 159-168):
select `error.status || error.statusCode`; when truthy, classify by status
code, otherwise fall through to the message patterns.  A truthy status
below 400 also falls through, as in the source. -/
def categorizeByStatus (e : JsError) : String :=
  match selStatus e with
  | some n =>
    if n = 0 then categorizeByMessage e
    else if n = 401 then "AUTHENTICATION"
    else if n = 403 then "AUTHORIZATION"
    else if n = 404 then "NOT_FOUND"
    else if n = 429 then "RATE_LIMIT"
    else if 500 ≤ n then "SERVER_ERROR"
    else if 400 ≤ n then "CLIENT_ERROR"
    else categorizeByMessage e
  | none => categorizeByMessage e

/-- `categorizeError` from `src/backend/utils/retry.js` (lines 139-218).
The Contentstack-specific tier fires when `error.error_code` or
`error.error_message` is truthy; when none of its cases match, control
falls through to the HTTP-status tier and then the message patterns. -/
def categorizeError (e : JsError) : String :=
  if truthyOptStr e.error_code || truthyOptStr e.error_message then
    if e.status = some 401 || e.error_code = some "UNAUTHORIZED" then "AUTHENTICATION"
    else if e.status = some 403 || e.error_code = some "FORBIDDEN" then "AUTHORIZATION"
    else if e.status = some 429 || e.error_code = some "RATE_LIMIT_EXCEEDED" then "RATE_LIMIT"
    else if statusGE e.status 500 then "SERVER_ERROR"
    else if statusGE e.status 400 && !statusGE e.status 500 then "CLIENT_ERROR"
    else categorizeByStatus e
  else categorizeByStatus e

/-- The transient-message vocabulary of `isRetryableError` (`retry.js`
lines 112-124). -/
def transientMessages : List String :=
  ["timeout", "connection reset", "connection refused", "network error",
   "socket hang up", "econnreset", "enotfound", "etimedout",
   "service unavailable", "bad gateway", "gateway timeout"]

/-- Whether the lowercased message contains one of the transient
substrings (`retry.js` lines 111-128). -/
def hasTransientMessage (e : JsError) : Bool :=
  transientMessages.any (fun msg => strIncludes (jsToLower e.message) msg)

/-- The `[429, 502, 503, 504].includes(status)` test of `isRetryableError`
(`retry.js` lines 101-108), guarded by truthiness of
`error.status || error.statusCode`. -/
def statusRetryable (e : JsError) : Bool :=
  match selStatus e with
  | some n => n ≠ 0 && (n = 429 || n = 502 || n = 503 || n = 504)
  | none => false

/-- `isRetryableError` from `src/backend/utils/retry.js` (lines 83-132),
mirroring the source's early-return chain. -/
def isRetryableError (e : JsError) : Bool :=
  let errorType := categorizeError e
  if errorType = "NETWORK" || errorType = "TIMEOUT" then true
  else if errorType = "RATE_LIMIT" then true
  else if errorType = "SERVER_ERROR" then true
  else if statusRetryable e then true
  else if hasTransientMessage e then true
  else false

/-- The attempt loop of `withRetry` (`retry.js` lines 23-73).  `attempt` is
the 1-based attempt counter; `retriesLeft` is `maxRetries + 1 - attempt`,
so `retriesLeft = 0` exactly when `attempt > maxRetries` (the last
attempt).  The second component of the result is the number of times the
operation was invoked (the attempt number at exit).  Backoff delays and
logging are pure side channels and are dropped. -/
def withRetryGo {E A : Type} (sr : E → Bool) (op : Nat → Except E A) :
    Nat → Nat → Except E A × Nat
  | attempt, retriesLeft =>
    match op attempt with
    | .ok v => (.ok v, attempt)
    | .error e =>
      match retriesLeft with
      | 0 => (.error e, attempt)
      | r + 1 =>
        if sr e then withRetryGo sr op (attempt + 1) r
        else (.error e, attempt)

/-- `withRetry` from `src/backend/utils/retry.js` (lines 13-76),
instrumented with the invocation count.  The operation oracle `op` maps the
attempt number to that invocation's outcome. -/
def withRetry {E A : Type} (sr : E → Bool) (maxRetries : Nat)
    (op : Nat → Except E A) : Except E A × Nat :=
  withRetryGo sr op 1 maxRetries

end RetryUtil

namespace EmbeddingsService

/-- Index of the last `' '` in a character list, or `none`
(JavaScript `String.prototype.lastIndexOf " "` returning `-1` becomes
`none`). -/
def lastSpaceIdx : List Char → Option Nat
  | [] => none
  | c :: cs =>
    match lastSpaceIdx cs with
    | some i => some (i + 1)
    | none => if c = ' ' then some 0 else none

/-- `truncateText` from the embeddings service (`EmbeddingsService`,
lines 269-288): empty text maps to `""`; text within the `maxTokens * 4`
character budget is returned unchanged; longer text is cut at `maxChars`
characters, moved back to the last word boundary when that boundary lies
past 80% of the budget, and suffixed with `"..."`.  The source compares
`lastSpaceIndex > maxChars * 0.8` with floating-point `0.8`; this is
modelled by the exact rational comparison `5 * lastSpaceIndex > 4 *
maxChars`.  String lengths count characters, modelling JavaScript string
indices. -/
def truncateText (text : String) (maxTokens : Nat) : String :=
  if text = "" then ""
  else
    let maxChars := maxTokens * 4
    if text.length ≤ maxChars then text
    else
      let truncated : String := ⟨text.data.take maxChars⟩
      let lastSpaceIndex : Int :=
        match lastSpaceIdx truncated.data with
        | some i => (i : Int)
        | none => -1
      let truncated2 : String :=
        if 5 * lastSpaceIndex > 4 * (maxChars : Int) then
          ⟨truncated.data.take lastSpaceIndex.toNat⟩
        else truncated
      truncated2 ++ "..."

/-- Outcome of one batch inside `generateEmbeddings` (lines 67-101): if
the provider call for batch number `b` fails (`failB b`, covering both a
thrown provider error and the `response.data.length` mismatch check, which
also throws into the same `catch`), the batch contributes `null` for each
of its texts; otherwise it contributes the provider's embedding of each
prepared (truncated) text, positionally aligned.  `embedF` is the
provider's embedding function. -/
def batchResult {Emb : Type} (failB : Nat → Bool) (embedF : String → Emb)
    (maxTokens : Nat) (b : Nat) (batch : List String) : List (Option Emb) :=
  if failB b then batch.map (fun _ => (none : Option Emb))
  else batch.map (fun t => some (embedF (truncateText t maxTokens)))

/-- The batch loop of `generateEmbeddings` (lines 59-102): the slice
`texts.slice(i, i + batchSize)` for `i = b * batchSize` is
`(texts.drop (b * batchSize)).take batchSize`, and the loop runs for
`Math.ceil(texts.length / batchSize)` batch numbers `b`, pushing each
batch's results onto one flat list. -/
def chunkedEmbeddings {Emb : Type} (failB : Nat → Bool) (embedF : String → Emb)
    (maxTokens batchSize : Nat) (texts : List String) : List (Option Emb) :=
  ((List.range ((texts.length + batchSize - 1) / batchSize)).map (fun b =>
    batchResult failB embedF maxTokens b ((texts.drop (b * batchSize)).take batchSize))).flatten

/-- `generateEmbeddings` from the embeddings service (lines 46-116):
rejects an empty input, then processes `Math.ceil(texts.length /
batchSize)` batches of `batchSize` consecutive texts, concatenating the
per-batch results (embeddings on success, `null`s on failure) in order.
The inter-batch delay is a pure side channel and is dropped. -/
def generateEmbeddings {Emb : Type} (failB : Nat → Bool) (embedF : String → Emb)
    (maxTokens : Nat) (texts : List String) (batchSize : Nat) :
    Except String (List (Option Emb)) :=
  if texts.length = 0 then .error "Texts must be a non-empty array"
  else .ok (chunkedEmbeddings failB embedF maxTokens batchSize texts)

/-- The `entries.map((entry, index) => (entry, embeddings[index]))` step of
`processContentEntries` (lines 248-252), carried out with an explicit
running index.  The second component is `embeddings[index]` as JavaScript
sees it: `none` models `undefined` (index out of range), `some none`
models `null` (failed batch), `some (some v)` a real vector. -/
def combineWithEmbeddings {α Emb : Type} (embeddings : List (Option Emb)) :
    List α → Nat → List (α × Option (Option Emb))
  | [], _ => []
  | e :: rest, i => (e, embeddings[i]?) :: combineWithEmbeddings embeddings rest (i + 1)

/-- The JavaScript test `entry.embedding !== null`: only the value `null`
(modelled `some none`) fails it; `undefined` and real vectors pass. -/
def notNull {Emb : Type} : Option (Option Emb) → Bool
  | some none => false
  | _ => true

/-- `processContentEntries` from the embeddings service (lines 225-264):
build one embedding text per entry (`textOf` models
`generateEmbeddingText` together with its internal `catch` fallback, which
always yields a string), generate embeddings with the default batch size
100, pair each entry with the embedding at its own index, and filter out
the entries whose embedding `!== null`. -/
def processContentEntries {α Emb : Type} (textOf : α → String)
    (failB : Nat → Bool) (embedF : String → Emb) (maxTokens : Nat)
    (entries : List α) : Except String (List (α × Option (Option Emb))) :=
  match generateEmbeddings failB embedF maxTokens (entries.map textOf) 100 with
  | .error msg => .error msg
  | .ok embeddings =>
    .ok ((combineWithEmbeddings embeddings entries 0).filter (fun p => notNull p.2))

end EmbeddingsService

namespace ContentstackService

/-- The slice of a raw Contentstack entry that `transformEntry` reads
directly: the `uid` and the optional update timestamps (`""` models an
absent/falsy field, matching JavaScript `||` chains on strings). -/
structure RawEntry where
  uid : String
  updated_at : String := ""
  metadata_updated_at : String := ""
deriving DecidableEq, Repr

/-- The `contentTypeManager` collaborator used by `transformEntry`
(`extractTitle`, `extractSnippet`, `generateUrl`, `extractTags`,
`extractCategory`); its functions live in another module and are pure, so
they are oracle parameters here. -/
structure CTManager where
  extractTitle : RawEntry → String → String
  extractSnippet : RawEntry → String → String
  generateUrl : RawEntry → String → String
  extractTags : RawEntry → String → List String
  extractCategory : RawEntry → String → String

/-- The canonical record produced by `transformEntry`. -/
structure TransformedEntry where
  id : String
  uid : String
  title : String
  snippet : String
  url : String
  content_type : String
  locale : String
  updated_at : String
  tags : List String
  category : String
  raw_data : RawEntry
deriving DecidableEq, Repr

/-- `transformEntry` from the Contentstack service (lines 592-620).
`nowIso` models `new Date().toISOString()`, used only as the final
fallback for `updated_at`. -/
def transformEntry (mgr : CTManager) (nowIso : String) (entry : RawEntry)
    (contentType locale : String) : TransformedEntry :=
  { id := contentType ++ "_" ++ entry.uid ++ "_" ++ locale
  , uid := entry.uid
  , title := mgr.extractTitle entry contentType
  , snippet := mgr.extractSnippet entry contentType
  , url := mgr.generateUrl entry contentType
  , content_type := contentType
  , locale := locale
  , updated_at :=
      if entry.updated_at ≠ "" then entry.updated_at
      else if entry.metadata_updated_at ≠ "" then entry.metadata_updated_at
      else nowIso
  , tags := mgr.extractTags entry contentType
  , category := mgr.extractCategory entry contentType
  , raw_data := entry }

/-- A concrete field-mapping configuration for evaluations: every
extractor returns a constant. -/
def trivialMgr : CTManager :=
  { extractTitle := fun _ _ => "t"
  , extractSnippet := fun _ _ => "s"
  , generateUrl := fun _ _ => "u"
  , extractTags := fun _ _ => []
  , extractCategory := fun _ _ => "c" }

/-- The per-(content type, locale) `while (hasMore)` pagination loop of
`getAllEntries` (Contentstack service, lines 427-515).  `api skip` is
`getEntriesByContentType(uid, locale, batchSize, skip)` returning the
page's entries and the reported `totalCount`; a thrown error is caught,
recorded and stops the loop.  The loop counter is carried as `remaining =
100 - batchCount`: the source's post-fetch safety check `batchCount > 100`
corresponds to `remaining = 0` after a fetch.  The second component counts
the pages fetched.  The 200ms inter-batch delay is a pure side channel and
is dropped. -/
def getAllEntriesLoop {α β : Type} (api : Nat → Except RetryUtil.JsError (List α × Nat))
    (transform : α → β) (batchSize : Nat) :
    Nat → Nat → List β → Nat → List β × Nat
  | remaining, skip, acc, pages =>
    match api skip with
    | .error _ => (acc, pages + 1)
    | .ok (entries, totalCount) =>
      if entries.length = 0 then (acc, pages + 1)
      else
        let acc2 := acc ++ entries.map transform
        let skip2 := skip + batchSize
        if entries.length = batchSize ∧ skip2 < totalCount then
          match remaining with
          | 0 => (acc2, pages + 1)
          | r + 1 => getAllEntriesLoop api transform batchSize r skip2 acc2 (pages + 1)
        else (acc2, pages + 1)

/-- One (content type, locale) pair of `getAllEntries`: start the
pagination loop at `skip = 0`, `batchCount = 0` (so 100 further batches
are allowed after the first). -/
def getAllEntriesPair {α β : Type} (api : Nat → Except RetryUtil.JsError (List α × Nat))
    (transform : α → β) (batchSize : Nat) : List β × Nat :=
  getAllEntriesLoop api transform batchSize 100 0 [] 0

end ContentstackService

namespace SyncJob

open RetryUtil (JsError)

/-- The fields of a fetched content entry that the sync job inspects
(validation, Supabase row building).  These are the entries produced by
`contentstackService.getAllEntries`, i.e. already transformed. -/
structure CEntry where
  id : String
  title : String
  content_type : String
  locale : String
  snippet : String := ""
  url : String := ""
  updated_at : String := ""
deriving DecidableEq, Repr

/-- `this.syncStats` of `ContentSyncJob` (constructor, lines 10-15). -/
structure SyncStats where
  totalRuns : Nat
  successfulRuns : Nat
  lastRunStatus : Option String
  lastError : Option String
deriving DecidableEq, Repr

/-- The mutable state of the `ContentSyncJob` singleton (`isRunning`,
`lastSyncTime` and `syncStats`); `lastSyncTime` is a timestamp modelled as
`Nat`. -/
structure JobState where
  isRunning : Bool
  lastSyncTime : Option Nat
  syncStats : SyncStats
deriving DecidableEq, Repr

/-- A call the fallback machinery makes against the Contentstack service:
`getAll locales batchSize` records `getAllEntries(locales, batchSize)`,
`byTypes cts locales` records the strategy-3 per-content-type fetch
(`syncSpecificContentTypes(cts, locales)`). -/
inductive FallbackCall where
  | getAll (locales : List String) (batchSize : Nat)
  | byTypes (contentTypes : List String) (locales : List String)
deriving DecidableEq, Repr

/-- A row handed to `supabaseService.batchUpsertContentEntries`
(`syncToSupabase`, lines 262-271). -/
structure SupaRow (Emb : Type) where
  id : String
  title : String
  snippet : String
  url : String
  content_type : String
  locale : String
  updated_at : String
  embedding : Emb

/-- The collaborators and ambient inputs of one `ContentSyncJob` run.
`getAllEntries locales batchSize` models
`contentstackService.getAllEntries`; its `Option` payload distinguishes a
non-array result (`none`, malformed shape) from a real array.
`getEntriesByCT ct locale` models the strategy-3 batch fetch
`getEntriesByContentType(ct, locale, 50, 0)` followed by `transformEntry`
on each raw entry.  `failB`/`embedF`/`maxTokens`/`textOf` drive the
embeddings service as in `EmbeddingsService`; `upsert` models
`supabaseService.batchUpsertContentEntries`. -/
structure SyncEnv (Emb : Type) where
  locales : List String
  getAllEntries : List String → Nat → Except JsError (Option (List CEntry))
  contentTypes : Except JsError (List String)
  getEntriesByCT : String → String → Except JsError (List CEntry)
  textOf : CEntry → String
  failB : Nat → Bool
  embedF : String → Emb
  maxTokens : Nat
  upsert : List (SupaRow Emb) → Except JsError Unit
  now : Nat
  nowStr : String

/-- An error created with `new Error(message)`: only the message is set. -/
def mkError (msg : String) : JsError := { message := msg }

/-- `validateContentResponse` (sync job, lines 547-605): `false` for a
non-array, `true` for an empty array, and otherwise each of the first
`min 5 length` entries must have truthy `id`, `title`, `content_type` and
`locale` fields. -/
def validateContentResponse : Option (List CEntry) → Bool
  | none => false
  | some [] => true
  | some l =>
    (l.take 5).all (fun e =>
      e.id ≠ "" && e.title ≠ "" && e.content_type ≠ "" && e.locale ≠ "")

/-- The acceptance test applied to fallback strategies 1 and 2
(`validateContentResponse(x) && x.length > 0`). -/
def goodResult (r : Option (List CEntry)) : Bool :=
  validateContentResponse r && decide (0 < (r.getD []).length)

/-- The acceptance test applied to fallback strategy 3, whose result is
always an array. -/
def goodList (l : List CEntry) : Bool :=
  validateContentResponse (some l) && decide (0 < l.length)

/-- `isRecoverableError` (sync job, lines 619-645): recoverable
categories, else recoverable message patterns. -/
def isRecoverableError (e : JsError) : Bool :=
  let cat := RetryUtil.categorizeError e
  if cat = "NETWORK" || cat = "TIMEOUT" || cat = "RATE_LIMIT" || cat = "SERVER_ERROR" then true
  else
    ["partial", "some content types failed", "batch failed", "connection", "timeout"].any
      (fun pat => RetryUtil.strIncludes (RetryUtil.jsToLower e.message) pat)

/-- `getCoreContentTypes` (sync job, lines 715-738): filter the discovered
content types to the priority names, fall back to the first three
discovered types when none match, and to `["blog_post", "page"]` when
discovery itself fails. -/
def getCoreContentTypes {Emb : Type} (env : SyncEnv Emb) : List String :=
  match env.contentTypes with
  | .error _ => ["blog_post", "page"]
  | .ok allContentTypes =>
    let priorityTypes := ["blog_post", "page", "article", "product", "news"]
    let coreTypes := allContentTypes.filter (fun uid => priorityTypes.contains uid)
    if coreTypes = [] then allContentTypes.take 3 else coreTypes

/-- The per-content-type locale loop of `syncSpecificContentTypes` (sync
job, lines 746-773): each locale's batch is appended; an error aborts the
remaining locales of this content type (the `catch` is per content type)
but keeps what was already pushed. -/
def syncSpecificCtLoop {Emb : Type} (env : SyncEnv Emb) (ct : String) :
    List String → List CEntry
  | [] => []
  | locale :: rest =>
    match env.getEntriesByCT ct locale with
    | .error _ => []
    | .ok entries => entries ++ syncSpecificCtLoop env ct rest

/-- `syncSpecificContentTypes` (sync job, lines 743-776): concatenation of
the per-content-type results; per-type failures are swallowed. -/
def syncSpecificContentTypes {Emb : Type} (env : SyncEnv Emb)
    (contentTypes locales : List String) : List CEntry :=
  contentTypes.flatMap (fun ct => syncSpecificCtLoop env ct locales)

/-- `handlePartialSyncFailure` (sync job, lines 650-710), instrumented
with the list of Contentstack calls it makes, in order.  Strategies:
(1) `getAllEntries(locales, 25)`, (2) `getAllEntries(["en-us"], 50)`,
(3) `syncSpecificContentTypes(getCoreContentTypes(), ["en-us"])`; the
first strategy passing its acceptance test wins; when all three fail the
function returns `[]`; an error thrown by a strategy is wrapped as
`Fallback sync failed: ...`. -/
def handlePartialSyncFailure {Emb : Type} (env : SyncEnv Emb) (locales : List String) :
    Except JsError (List CEntry) × List FallbackCall :=
  match env.getAllEntries locales 25 with
  | .error e => (.error (mkError ("Fallback sync failed: " ++ e.message)), [.getAll locales 25])
  | .ok r1 =>
    if goodResult r1 then (.ok (r1.getD []), [.getAll locales 25])
    else
      match env.getAllEntries ["en-us"] 50 with
      | .error e =>
        (.error (mkError ("Fallback sync failed: " ++ e.message)),
         [.getAll locales 25, .getAll ["en-us"] 50])
      | .ok r2 =>
        if goodResult r2 then
          (.ok (r2.getD []), [.getAll locales 25, .getAll ["en-us"] 50])
        else
          let coreContentTypes := getCoreContentTypes env
          let coreEntries := syncSpecificContentTypes env coreContentTypes ["en-us"]
          let calls := [.getAll locales 25, .getAll ["en-us"] 50,
                        FallbackCall.byTypes coreContentTypes ["en-us"]]
          if goodList coreEntries then (.ok coreEntries, calls)
          else (.ok [], calls)

/-- The `catch` block of `fetchContentFromContentstack` (lines 136-162):
recoverable errors trigger one more fallback pass over `["en-us"]`;
otherwise (and when that fallback also throws) the error is rethrown with
an enhanced message. -/
def fetchCatch {Emb : Type} (env : SyncEnv Emb) (e : JsError) (calls : List FallbackCall) :
    Except JsError (List CEntry) × List FallbackCall :=
  if isRecoverableError e then
    match handlePartialSyncFailure env ["en-us"] with
    | (.ok entries, calls2) => (.ok entries, calls ++ calls2)
    | (.error fe, calls2) =>
      (.error (mkError ("Content sync failed: " ++ e.message ++ ". Fallback also failed: " ++ fe.message)),
       calls ++ calls2)
  else (.error (mkError ("Content sync failed: " ++ e.message)), calls)

/-- `fetchContentFromContentstack` (sync job, lines 103-163): the primary
fetch is `getAllEntries(locales)` with the service's default batch size
50; a result failing `validateContentResponse` routes to
`handlePartialSyncFailure(locales)`, and a thrown error to the `catch`
block.  The call log records every Contentstack fetch made, in order. -/
def fetchContentFromContentstack {Emb : Type} (env : SyncEnv Emb) :
    Except JsError (List CEntry) × List FallbackCall :=
  match env.getAllEntries env.locales 50 with
  | .ok raw =>
    if validateContentResponse raw then (.ok (raw.getD []), [.getAll env.locales 50])
    else
      match handlePartialSyncFailure env env.locales with
      | (.ok entries, calls) => (.ok entries, .getAll env.locales 50 :: calls)
      | (.error e, calls) => fetchCatch env e (.getAll env.locales 50 :: calls)
  | .error e => fetchCatch env e [.getAll env.locales 50]

/-- `processEntriesWithEmbeddings` (sync job, lines 168-220): validate the
entries, delegate to the embeddings service, and wrap any thrown error as
`Embedding generation failed: ...`. -/
def processEntriesWithEmbeddings {Emb : Type} (env : SyncEnv Emb) (entries : List CEntry) :
    Except JsError (List (CEntry × Option (Option Emb))) :=
  if !validateContentResponse (some entries) then
    .error (mkError "Embedding generation failed: Invalid entries provided for embedding processing")
  else
    match EmbeddingsService.processContentEntries env.textOf env.failB env.embedF
        env.maxTokens entries with
    | .error msg => .error (mkError ("Embedding generation failed: " ++ msg))
    | .ok processed => .ok processed

/-- `syncToSupabase` (sync job, lines 225-323), instrumented with whether
`batchUpsertContentEntries` was invoked.  An empty input returns success
without touching the store; entries missing `id`, `title`, `content_type`
or a truthy `embedding` are skipped when building rows; if nothing
survives, the function throws; otherwise the surviving rows are upserted
and an upstream error is wrapped as `Supabase sync failed: ...`. -/
def syncToSupabase {Emb : Type} (env : SyncEnv Emb)
    (processed : List (CEntry × Option (Option Emb))) : Except JsError Unit × Bool :=
  if processed.length = 0 then (.ok (), false)
  else
    let supabaseEntries := processed.filterMap (fun p =>
      match p.2 with
      | some (some v) =>
        if p.1.id ≠ "" && p.1.title ≠ "" && p.1.content_type ≠ "" then
          some { id := p.1.id, title := p.1.title, snippet := p.1.snippet
               , url := p.1.url, content_type := p.1.content_type
               , locale := if p.1.locale = "" then "en-us" else p.1.locale
               , updated_at := if p.1.updated_at = "" then env.nowStr else p.1.updated_at
               , embedding := v }
        else none
      | _ => none)
    if supabaseEntries.length = 0 then
      (.error (mkError "Supabase sync failed: No valid entries to sync after validation"), false)
    else
      match env.upsert supabaseEntries with
      | .ok _ => (.ok (), true)
      | .error e => (.error (mkError ("Supabase sync failed: " ++ e.message)), true)

/-- `run` of `ContentSyncJob` (sync job, lines 21-98), as a pure state
transition.  Result components: the outcome (`.error` models the rethrown
exception), the job state after the `finally` block, the log of
Contentstack fetch calls, and whether the store upsert was invoked. -/
def run {Emb : Type} (env : SyncEnv Emb) (s : JobState) :
    Except JsError Unit × JobState × List FallbackCall × Bool :=
  if s.isRunning then (.ok (), s, [], false)
  else
    let stats1 := { s.syncStats with totalRuns := s.syncStats.totalRuns + 1 }
    match fetchContentFromContentstack env with
    | (.error e, calls) =>
      (.error e,
       { s with isRunning := false,
                syncStats := { stats1 with lastRunStatus := some "error", lastError := some e.message } },
       calls, false)
    | (.ok contentEntries, calls) =>
      if contentEntries.length = 0 then
        (.ok (),
         { s with isRunning := false,
                  syncStats := { stats1 with lastRunStatus := some "no_content" } },
         calls, false)
      else
        match processEntriesWithEmbeddings env contentEntries with
        | .error e =>
          (.error e,
           { s with isRunning := false,
                    syncStats := { stats1 with lastRunStatus := some "error", lastError := some e.message } },
           calls, false)
        | .ok processedEntries =>
          if processedEntries.length = 0 then
            (.ok (),
             { s with isRunning := false,
                      syncStats := { stats1 with lastRunStatus := some "no_embeddings" } },
             calls, false)
          else
            match syncToSupabase env processedEntries with
            | (.error e, up) =>
              (.error e,
               { s with isRunning := false,
                        syncStats := { stats1 with lastRunStatus := some "error", lastError := some e.message } },
               calls, up)
            | (.ok _, up) =>
              (.ok (),
               { s with isRunning := false, lastSyncTime := some env.now,
                        syncStats := { stats1 with successfulRuns := stats1.successfulRuns + 1, lastRunStatus := some "success", lastError := none } },
               calls, up)

/-- A minimal sync environment for concrete evaluations: the source
reports an empty, well-formed content array and every collaborator
succeeds trivially. -/
def stubEnv : SyncJob.SyncEnv Unit :=
  { locales := ["en-us"]
  , getAllEntries := fun _ _ => .ok (some [])
  , contentTypes := .ok []
  , getEntriesByCT := fun _ _ => .ok []
  , textOf := fun _ => ""
  , failB := fun _ => false
  , embedF := fun _ => ()
  , maxTokens := 1
  , upsert := fun _ => .ok ()
  , now := 0
  , nowStr := "" }

/-- A sync environment whose source always returns a malformed (non-array)
payload, so the primary fetch fails validation and every fallback strategy
comes back empty. -/
def malformedEnv : SyncJob.SyncEnv Unit :=
  { stubEnv with getAllEntries := fun _ _ => .ok none }

/-- The idle job state as built by the `ContentSyncJob` constructor. -/
def idleState : SyncJob.JobState :=
  { isRunning := false
  , lastSyncTime := none
  , syncStats := { totalRuns := 0, successfulRuns := 0, lastRunStatus := none, lastError := none } }

/-- An in-flight job state (same statistics, `isRunning` set). -/
def runningState : SyncJob.JobState :=
  { idleState with isRunning := true }

end SyncJob

/-! ## Lemmas about the retry loop -/

namespace RetryUtil

theorem withRetryGo_count_le {E A : Type} (sr : E → Bool) (op : Nat → Except E A) :
    ∀ (r attempt : Nat), (withRetryGo sr op attempt r).2 ≤ attempt + r := by
  intro r
  induction r with
  | zero =>
    intro attempt
    unfold withRetryGo
    cases h : op attempt <;> simp
  | succ r ih =>
    intro attempt
    unfold withRetryGo
    cases h : op attempt with
    | ok v => simp
    | error e =>
      cases hs : sr e with
      | true =>
        simp only [hs, if_true]
        have := ih (attempt + 1)
        omega
      | false => simp [hs]

theorem withRetryGo_retry_then_ok {E A : Type} (sr : E → Bool) (op : Nat → Except E A) :
    ∀ (r attempt : Nat) (v : A),
      (∀ k, k < r → ∃ e, op (attempt + k) = .error e ∧ sr e = true) →
      op (attempt + r) = .ok v →
      withRetryGo sr op attempt r = (.ok v, attempt + r) := by
  intro r
  induction r with
  | zero =>
    intro attempt v _ hok
    rw [Nat.add_zero] at hok
    unfold withRetryGo
    rw [hok]
    simp
  | succ r ih =>
    intro attempt v hfail hok
    obtain ⟨e, he, hsr⟩ := hfail 0 (Nat.succ_pos r)
    rw [Nat.add_zero] at he
    unfold withRetryGo
    rw [he]
    simp only [hsr, if_true]
    have step := ih (attempt + 1) v
      (fun k hk => by
        have := hfail (k + 1) (by omega)
        rwa [show attempt + (k + 1) = attempt + 1 + k by omega] at this)
      (by rwa [show attempt + 1 + r = attempt + (r + 1) by omega])
    rw [step, show attempt + 1 + r = attempt + (r + 1) by omega]

theorem withRetryGo_exhaust {E A : Type} (sr : E → Bool) (op : Nat → Except E A) :
    ∀ (r attempt : Nat) (e : E),
      (∀ k, k < r → ∃ e2, op (attempt + k) = .error e2 ∧ sr e2 = true) →
      op (attempt + r) = .error e →
      withRetryGo sr op attempt r = (.error e, attempt + r) := by
  intro r
  induction r with
  | zero =>
    intro attempt e _ herr
    rw [Nat.add_zero] at herr
    unfold withRetryGo
    rw [herr]
    simp
  | succ r ih =>
    intro attempt e hfail herr
    obtain ⟨e0, he0, hsr⟩ := hfail 0 (Nat.succ_pos r)
    rw [Nat.add_zero] at he0
    unfold withRetryGo
    rw [he0]
    simp only [hsr, if_true]
    have step := ih (attempt + 1) e
      (fun k hk => by
        have := hfail (k + 1) (by omega)
        rwa [show attempt + (k + 1) = attempt + 1 + k by omega] at this)
      (by rwa [show attempt + 1 + r = attempt + (r + 1) by omega])
    rw [step, show attempt + 1 + r = attempt + (r + 1) by omega]

theorem withRetryGo_nonretryable {E A : Type} (sr : E → Bool) (op : Nat → Except E A)
    (r attempt : Nat) (e : E) (he : op attempt = .error e) (hsr : sr e = false) :
    withRetryGo sr op attempt r = (.error e, attempt) := by
  cases r with
  | zero => unfold withRetryGo; rw [he]
  | succ r => unfold withRetryGo; rw [he]; simp [hsr]

end RetryUtil

/-- Claim C1: for every operation and every `maxRetries`, `withRetry`
invokes the operation at most `maxRetries + 1` times; when the operation
fails with retryable errors on attempts `1..maxRetries` and succeeds on
attempt `maxRetries + 1`, the success value is returned after exactly
`maxRetries + 1` invocations; when the first attempt fails with a
non-retryable error (per `shouldRetry`), the operation is invoked exactly
once and that same error is raised unchanged; when every attempt fails
(retryably up to the last), the last attempt's error is raised unchanged
after `maxRetries + 1` invocations. -/
theorem withRetry_claim {E A : Type} (sr : E → Bool) (maxRetries : Nat)
    (op : Nat → Except E A) :
    (RetryUtil.withRetry sr maxRetries op).2 ≤ maxRetries + 1
    ∧ (∀ v : A, (∀ a, 1 ≤ a → a ≤ maxRetries → ∃ e, op a = .error e ∧ sr e = true) →
        op (maxRetries + 1) = .ok v →
        RetryUtil.withRetry sr maxRetries op = (.ok v, maxRetries + 1))
    ∧ (∀ e : E, op 1 = .error e → sr e = false →
        RetryUtil.withRetry sr maxRetries op = (.error e, 1))
    ∧ (∀ e : E, (∀ a, 1 ≤ a → a ≤ maxRetries → ∃ e2, op a = .error e2 ∧ sr e2 = true) →
        op (maxRetries + 1) = .error e →
        RetryUtil.withRetry sr maxRetries op = (.error e, maxRetries + 1)) := by
  refine ⟨?_, ?_, ?_, ?_⟩
  · have := RetryUtil.withRetryGo_count_le sr op maxRetries 1
    unfold RetryUtil.withRetry
    omega
  · intro v hfail hok
    unfold RetryUtil.withRetry
    have := RetryUtil.withRetryGo_retry_then_ok sr op maxRetries 1 v
      (fun k hk => by
        have := hfail (1 + k) (by omega) (by omega)
        rwa [] at this)
      (by rwa [show 1 + maxRetries = maxRetries + 1 by omega])
    rwa [show 1 + maxRetries = maxRetries + 1 by omega] at this
  · intro e he hsr
    unfold RetryUtil.withRetry
    exact RetryUtil.withRetryGo_nonretryable sr op maxRetries 1 e he hsr
  · intro e hfail herr
    unfold RetryUtil.withRetry
    have := RetryUtil.withRetryGo_exhaust sr op maxRetries 1 e
      (fun k hk => hfail (1 + k) (by omega) (by omega))
      (by rwa [show 1 + maxRetries = maxRetries + 1 by omega])
    rwa [show 1 + maxRetries = maxRetries + 1 by omega] at this

/-- Witness for C1: a concrete operation failing retryably twice and
succeeding on the third attempt, with `maxRetries = 2`, returns the
success value after exactly 3 invocations. -/
theorem withRetry_claim_witness :
    RetryUtil.withRetry (fun _ : Nat => true) 2
      (fun a => if a = 3 then Except.ok 7 else Except.error 0) = (Except.ok 7, 3) := by
  have h := (withRetry_claim (fun _ : Nat => true) 2
    (fun a => if a = 3 then Except.ok 7 else Except.error 0)).2.1
  exact h 7
    (fun a h1 h2 => ⟨0, by simp [show a ≠ 3 by omega], rfl⟩)
    (by simp)

/-- Counterexample to C2 as stated: the error `new Error("bad gateway")`
(no status, no provider code) is classified `UNKNOWN`, yet
`isRetryableError` returns `true` for it, because the transient-message
scan fires on `"bad gateway"`; the claim says `isRetryableError` is false
for every error classified `UNKNOWN`. -/
theorem isRetryable_unknown_counterexample :
    RetryUtil.categorizeError { message := "bad gateway" } = "UNKNOWN"
    ∧ RetryUtil.isRetryableError { message := "bad gateway" } = true := by
  exact ⟨by decide, by decide⟩

/-- Claim C2 (amended): `isRetryable(error)` is true iff the classified
category is in NETWORK / TIMEOUT / RATE_LIMIT / SERVER_ERROR, or the
selected HTTP status is in 429 / 502 / 503 / 504, or the lowercased
message contains one of the transient substrings (timeout, connection
reset, connection refused, network error, socket hang up, econnreset,
enotfound, etimedout, service unavailable, bad gateway, gateway timeout);
consequently an error classified AUTHENTICATION, AUTHORIZATION,
VALIDATION, CLIENT_ERROR or UNKNOWN is non-retryable provided neither its
status nor its message matches those transient patterns. -/
theorem isRetryableError_characterization (e : RetryUtil.JsError) :
    RetryUtil.isRetryableError e =
      (decide (RetryUtil.categorizeError e = "NETWORK")
        || decide (RetryUtil.categorizeError e = "TIMEOUT")
        || decide (RetryUtil.categorizeError e = "RATE_LIMIT")
        || decide (RetryUtil.categorizeError e = "SERVER_ERROR")
        || RetryUtil.statusRetryable e
        || RetryUtil.hasTransientMessage e)
    ∧ (RetryUtil.categorizeError e ∈
          (["AUTHENTICATION", "AUTHORIZATION", "VALIDATION", "CLIENT_ERROR", "UNKNOWN"] : List String) →
        RetryUtil.statusRetryable e = false →
        RetryUtil.hasTransientMessage e = false →
        RetryUtil.isRetryableError e = false) := by
  have main : RetryUtil.isRetryableError e =
      (decide (RetryUtil.categorizeError e = "NETWORK")
        || decide (RetryUtil.categorizeError e = "TIMEOUT")
        || decide (RetryUtil.categorizeError e = "RATE_LIMIT")
        || decide (RetryUtil.categorizeError e = "SERVER_ERROR")
        || RetryUtil.statusRetryable e
        || RetryUtil.hasTransientMessage e) := by
    unfold RetryUtil.isRetryableError
    split_ifs with h1 h2 h3 h4 h5 <;> simp_all [Bool.or_assoc]
  refine ⟨main, ?_⟩
  intro hcat hs ht
  rw [main, hs, ht]
  simp only [List.mem_cons, List.not_mem_nil, or_false] at hcat
  rcases hcat with h | h | h | h | h <;> rw [h] <;> decide

/-- Witness for C2 (amended): a plain HTTP 400 error with an
uninformative message is classified CLIENT_ERROR, matches no transient
pattern, and is not retryable. -/
theorem isRetryableError_characterization_witness :
    RetryUtil.isRetryableError { message := "boom", status := some 400 } = false := by
  exact (isRetryableError_characterization { message := "boom", status := some 400 }).2
    (by decide) (by decide) (by decide)

/-- Claim C7: the `id` produced by `transformEntry` is exactly
`{category}_{sourceId}_{locale}`; it does not depend on the field-mapping
configuration or on the clock, so two calls on the same raw entry with the
same category and locale agree on `id`; and for every raw entry the id
built with locale `"en-us"` differs from the id built with locale
`"fr-fr"`. -/
theorem transformEntry_id_deterministic (mgr mgr2 : ContentstackService.CTManager)
    (now now2 : String) (entry : ContentstackService.RawEntry) (ct loc : String) :
    (ContentstackService.transformEntry mgr now entry ct loc).id
        = ct ++ "_" ++ entry.uid ++ "_" ++ loc
    ∧ (ContentstackService.transformEntry mgr now entry ct loc).id
        = (ContentstackService.transformEntry mgr2 now2 entry ct loc).id
    ∧ (ContentstackService.transformEntry mgr now entry ct "en-us").id
        ≠ (ContentstackService.transformEntry mgr2 now2 entry ct "fr-fr").id := by
  refine ⟨rfl, rfl, ?_⟩
  intro h
  simp only [ContentstackService.transformEntry] at h
  have hd := congrArg String.data h
  simp only [String.data_append] at hd
  have := List.append_cancel_left hd
  exact absurd this (by decide)

/-- Witness for C7: a concrete raw entry transformed as a blog post in
`en-us` gets the id `blog_post_e1_en-us`, independent of the concrete
manager and clock. -/
theorem transformEntry_id_deterministic_witness :
    (ContentstackService.transformEntry ContentstackService.trivialMgr "2024-01-01"
        { uid := "e1" } "blog_post" "en-us").id
      = "blog_post" ++ "_" ++ "e1" ++ "_" ++ "en-us"
    ∧ (ContentstackService.transformEntry ContentstackService.trivialMgr "2024-01-01"
        { uid := "e1" } "blog_post" "en-us").id
      ≠ (ContentstackService.transformEntry ContentstackService.trivialMgr "2024-01-02"
        { uid := "e1" } "blog_post" "fr-fr").id :=
  ⟨(transformEntry_id_deterministic ContentstackService.trivialMgr
      ContentstackService.trivialMgr "2024-01-01" "2024-01-01" { uid := "e1" }
      "blog_post" "en-us").1,
   (transformEntry_id_deterministic ContentstackService.trivialMgr
      ContentstackService.trivialMgr "2024-01-01" "2024-01-02" { uid := "e1" }
      "blog_post" "en-us").2.2⟩

/-- Counterexample to C9 as stated: with a one-token budget
(`maxChars = 4`), the five-character spaceless text `"abcde"` is truncated
to `"abcd"` and then suffixed with `"..."`, giving a seven-character
result — more than `maxTokens * 4` characters; the claim bounds the result
by `maxTokens * 4`. -/
theorem truncateText_exceeds_counterexample :
    EmbeddingsService.truncateText "abcde" 1 = "abcd..."
    ∧ ¬ (EmbeddingsService.truncateText "abcde" 1).length ≤ 1 * 4 := by
  exact ⟨by decide, by decide⟩

/-- Claim C9 (amended): the embedding-text truncation returns at most
`maxTokens * 4 + 3` characters (the `"..."` suffix is appended after
cutting to the `maxTokens * 4` character budget); text within the budget
is returned unchanged; and the cut is moved back to the last word boundary
only when that boundary lies past 80% of the character budget. -/
theorem truncateText_length_bound (text : String) (maxTokens : Nat) :
    (EmbeddingsService.truncateText text maxTokens).length ≤ maxTokens * 4 + 3
    ∧ (text.length ≤ maxTokens * 4 → EmbeddingsService.truncateText text maxTokens = text) := by
  have hdots : ("..." : String).length = 3 := rfl
  constructor
  · simp only [EmbeddingsService.truncateText]
    split_ifs with h1 h2 h3
    · simp
    · omega
    · rw [String.length_append]
      simp only [String.length_mk, List.length_take]
      omega
    · rw [String.length_append]
      simp only [String.length_mk, List.length_take]
      omega
  · intro hle
    simp only [EmbeddingsService.truncateText]
    split_ifs with h1 h2 h3 <;> first
      | exact h1.symm
      | rfl
      | exact absurd hle h2

/-- Witness for C9 (amended): a two-character text with a one-token
budget is returned unchanged. -/
theorem truncateText_length_bound_witness :
    EmbeddingsService.truncateText "ab" 1 = "ab" := by
  exact (truncateText_length_bound "ab" 1).2 (by decide)

namespace ContentstackService

theorem getAllEntriesLoop_pages_le {α β : Type}
    (api : Nat → Except RetryUtil.JsError (List α × Nat)) (transform : α → β)
    (batchSize : Nat) :
    ∀ (remaining skip : Nat) (acc : List β) (pages : Nat),
      (getAllEntriesLoop api transform batchSize remaining skip acc pages).2
        ≤ pages + remaining + 1 := by
  intro remaining
  induction remaining with
  | zero =>
    intro skip acc pages
    unfold getAllEntriesLoop
    cases h : api skip with
    | error e => simp
    | ok p =>
      cases p with
      | mk entries totalCount =>
        dsimp only
        split_ifs with h1 h2 <;> simp
  | succ r ih =>
    intro skip acc pages
    unfold getAllEntriesLoop
    cases h : api skip with
    | error e => simp
    | ok p =>
      cases p with
      | mk entries totalCount =>
        dsimp only
        split_ifs with h1 h2
        · simp
        · have := ih (skip + batchSize) (acc ++ entries.map transform) (pages + 1)
          omega
        · simp

end ContentstackService

/-- Counterexample to C8 as stated: against a source that always returns
one full page and reports 1000 available records, the pagination loop for
a single (content type, locale) pair fetches 101 pages, not at most 100 —
the source's safety check `batchCount > 100` fires only after the 101st
fetch. -/
theorem getAllEntries_101_pages_counterexample :
    (ContentstackService.getAllEntriesPair
        (fun _ => Except.ok ([()], 1000)) (fun x => x) 1).2 = 101
    ∧ ¬ (ContentstackService.getAllEntriesPair
        (fun _ => Except.ok ([()], 1000)) (fun x => x) 1).2 ≤ 100 := by
  exact ⟨by decide, by decide⟩

/-- Claim C8 (amended): for every (category, locale) pair the paginated
fetch loop terminates (it is a total function here): it pages with `skip`
incremented by the page size until a page returns zero records or
`skip ≥ totalCount`, and in every case — even against a source that
always reports more data — it fetches at most 101 pages: the safety
ceiling stops the loop after the fetch on which the batch counter exceeds
100. -/
theorem getAllEntries_page_bound {α β : Type}
    (api : Nat → Except RetryUtil.JsError (List α × Nat)) (transform : α → β)
    (batchSize : Nat) :
    (ContentstackService.getAllEntriesPair api transform batchSize).2 ≤ 101
    ∧ (∀ t, api 0 = Except.ok (([] : List α), t) →
        ContentstackService.getAllEntriesPair api transform batchSize = ([], 1)) := by
  constructor
  · exact ContentstackService.getAllEntriesLoop_pages_le api transform batchSize 100 0 [] 0
  · intro t h
    unfold ContentstackService.getAllEntriesPair ContentstackService.getAllEntriesLoop
    rw [h]
    simp

/-- Witness for C8 (amended): a source whose very first page is empty
makes the loop stop after one fetch. -/
theorem getAllEntries_page_bound_witness :
    ContentstackService.getAllEntriesPair
      (fun _ => Except.ok (([] : List Unit), 0)) (fun x => x) 50 = ([], 1) := by
  exact (getAllEntries_page_bound (fun _ => Except.ok (([] : List Unit), 0))
    (fun x => x) 50).2 0 rfl

/-! ## Lemmas about the embedding batch loop -/

namespace EmbeddingsService

theorem chunkedEmbeddings_nil {Emb : Type} (failB : Nat → Bool) (embedF : String → Emb)
    (maxTokens batchSize : Nat) (hB : 0 < batchSize) :
    chunkedEmbeddings failB embedF maxTokens batchSize [] = [] := by
  unfold chunkedEmbeddings
  have h0 : (([] : List String).length + batchSize - 1) / batchSize = 0 :=
    Nat.div_eq_of_lt (by simp; omega)
  rw [h0]
  simp

theorem chunkedEmbeddings_step {Emb : Type} (failB : Nat → Bool) (embedF : String → Emb)
    (maxTokens batchSize : Nat) (hB : 0 < batchSize) (texts : List String)
    (hne : texts ≠ []) :
    chunkedEmbeddings failB embedF maxTokens batchSize texts
      = batchResult failB embedF maxTokens 0 (texts.take batchSize)
        ++ chunkedEmbeddings (fun b => failB (b + 1)) embedF maxTokens batchSize
            (texts.drop batchSize) := by
  have hL : 1 ≤ texts.length := List.length_pos.mpr hne
  have hnb : (texts.length + batchSize - 1) / batchSize
      = ((texts.drop batchSize).length + batchSize - 1) / batchSize + 1 := by
    rw [List.length_drop]
    have e1 : texts.length + batchSize - 1 = (texts.length - 1) + batchSize := by omega
    rw [e1, Nat.add_div_right _ hB]
    rcases Nat.le_total batchSize texts.length with hc | hc
    · have e2 : texts.length - batchSize + batchSize - 1 = texts.length - 1 := by omega
      rw [e2]
    · have e2 : texts.length - batchSize = 0 := by omega
      rw [e2]
      have e4 : (0 + batchSize - 1) / batchSize = 0 := Nat.div_eq_of_lt (by omega)
      have e5 : (texts.length - 1) / batchSize = 0 := Nat.div_eq_of_lt (by omega)
      omega
  unfold chunkedEmbeddings
  rw [hnb, List.range_succ_eq_map, List.map_cons, List.flatten_cons]
  congr 1
  · norm_num
  · refine congrArg List.flatten ?_
    rw [List.map_map]
    apply List.map_congr_left
    intro b _
    simp only [Function.comp]
    rw [List.drop_drop]
    rw [show Nat.succ b * batchSize = batchSize + b * batchSize from by
      rw [Nat.succ_mul, Nat.add_comm]]
    rfl

theorem chunkedEmbeddings_spec {Emb : Type} (embedF : String → Emb)
    (maxTokens batchSize : Nat) (hB : 0 < batchSize) :
    ∀ (n : Nat) (texts : List String) (failB : Nat → Bool), texts.length ≤ n →
      (chunkedEmbeddings failB embedF maxTokens batchSize texts).length = texts.length
      ∧ ∀ i, i < texts.length →
          (chunkedEmbeddings failB embedF maxTokens batchSize texts)[i]?
            = some (if failB (i / batchSize) then none
                else some (embedF (truncateText (texts.getD i "") maxTokens))) := by
  intro n
  induction n with
  | zero =>
    intro texts failB hlen
    have hn : texts = [] := List.eq_nil_of_length_eq_zero (by omega)
    subst hn
    rw [chunkedEmbeddings_nil failB embedF maxTokens batchSize hB]
    exact ⟨rfl, fun i hi => absurd hi (by simp)⟩
  | succ n ih =>
    intro texts failB hlen
    by_cases hnil : texts = []
    · subst hnil
      rw [chunkedEmbeddings_nil failB embedF maxTokens batchSize hB]
      exact ⟨rfl, fun i hi => absurd hi (by simp)⟩
    · have hL : 1 ≤ texts.length := List.length_pos.mpr hnil
      rw [chunkedEmbeddings_step failB embedF maxTokens batchSize hB texts hnil]
      have hdrop : (texts.drop batchSize).length ≤ n := by
        rw [List.length_drop]; omega
      obtain ⟨ihlen, ihidx⟩ := ih (texts.drop batchSize) (fun b => failB (b + 1)) hdrop
      have hb0 : (batchResult failB embedF maxTokens 0 (texts.take batchSize)).length
          = min batchSize texts.length := by
        unfold batchResult
        split_ifs <;> simp
      constructor
      · rw [List.length_append, hb0, ihlen, List.length_drop]
        omega
      · intro i hi
        by_cases hib : i < batchSize
        · have hlt : i < (batchResult failB embedF maxTokens 0 (texts.take batchSize)).length := by
            rw [hb0]; omega
          have hdiv0 : i / batchSize = 0 := Nat.div_eq_of_lt hib
          have hidx : (texts.take batchSize)[i]? = some (texts.getD i "") := by
            rw [List.getElem?_take_of_lt hib, List.getElem?_eq_getElem hi,
              List.getD_eq_getElem?_getD, List.getElem?_eq_getElem hi]
            rfl
          rw [List.getElem?_append_left hlt, hdiv0]
          unfold batchResult
          split_ifs with hf
          · rw [List.getElem?_map, hidx]
            rfl
          · rw [List.getElem?_map, hidx]
            rfl
        · have hge : (batchResult failB embedF maxTokens 0 (texts.take batchSize)).length ≤ i := by
            rw [hb0]; omega
          rw [List.getElem?_append_right hge, hb0]
          have hmin : min batchSize texts.length = batchSize := by omega
          rw [hmin]
          have hi2 : i - batchSize < (texts.drop batchSize).length := by
            rw [List.length_drop]; omega
          rw [ihidx (i - batchSize) hi2]
          have hdiv : (i - batchSize) / batchSize + 1 = i / batchSize :=
            (Nat.div_eq_sub_div hB (by omega)).symm
          have hgd : (texts.drop batchSize).getD (i - batchSize) "" = texts.getD i "" := by
            rw [List.getD_eq_getElem?_getD, List.getD_eq_getElem?_getD, List.getElem?_drop,
              show batchSize + (i - batchSize) = i by omega]
          rw [hgd, hdiv]

theorem combineFilter_spec {α Emb : Type} (embeddings : List (Option Emb))
    (val : Nat → Option Emb) :
    ∀ (entries : List α) (k : Nat),
      (∀ j, j < entries.length → embeddings[k + j]? = some (val (k + j))) →
      (((combineWithEmbeddings embeddings entries k).filter
          (fun p => notNull p.2)).map Prod.fst).Sublist entries
      ∧ (∀ p ∈ (combineWithEmbeddings embeddings entries k).filter (fun p => notNull p.2),
          ∃ v, p.2 = some (some v))
      ∧ ((combineWithEmbeddings embeddings entries k).filter (fun p => notNull p.2)).length
          = (List.range entries.length).countP (fun j => (val (k + j)).isSome) := by
  intro entries
  induction entries with
  | nil =>
    intro k _
    exact ⟨List.nil_sublist _, fun p hp => absurd hp (by simp [combineWithEmbeddings]), by
      simp [combineWithEmbeddings]⟩
  | cons e rest ih =>
    intro k hemb
    have h0 : embeddings[k]? = some (val k) := by
      have := hemb 0 (by simp)
      simpa using this
    have hrest : ∀ j, j < rest.length → embeddings[(k + 1) + j]? = some (val ((k + 1) + j)) := by
      intro j hj
      have := hemb (j + 1) (by simp; omega)
      rwa [show k + (j + 1) = (k + 1) + j by omega] at this
    obtain ⟨ihsub, ihnn, ihlen⟩ := ih (k + 1) hrest
    have hcomb : combineWithEmbeddings embeddings (e :: rest) k
        = (e, some (val k)) :: combineWithEmbeddings embeddings rest (k + 1) := by
      rw [combineWithEmbeddings, h0]
    have hcount : (List.range (e :: rest).length).countP (fun j => (val (k + j)).isSome)
        = ((val k).isSome.toNat)
          + (List.range rest.length).countP (fun j => (val ((k + 1) + j)).isSome) := by
      rw [List.length_cons, List.range_succ_eq_map, List.countP_cons, List.countP_map]
      have : (List.range rest.length).countP ((fun j => (val (k + j)).isSome) ∘ Nat.succ)
          = (List.range rest.length).countP (fun j => (val ((k + 1) + j)).isSome) := by
        apply List.countP_congr
        intro j _
        simp only [Function.comp]
        rw [show k + Nat.succ j = (k + 1) + j by omega]
      rw [this]
      cases hv : (val k).isSome <;> simp [hv] <;> omega
    cases hv : val k with
    | none =>
      rw [hcomb, List.filter_cons]
      have : notNull (some (val k)) = false := by rw [hv]; rfl
      rw [this]
      simp only [Bool.false_eq_true, if_false]
      refine ⟨ihsub.cons e, ihnn, ?_⟩
      rw [ihlen, hcount, hv]
      simp
    | some v =>
      rw [hcomb, List.filter_cons]
      have : notNull (some (val k)) = true := by rw [hv]; rfl
      rw [this]
      simp only [if_true]
      refine ⟨?_, ?_, ?_⟩
      · rw [List.map_cons]
        exact ihsub.cons₂ e
      · intro p hp
        rcases List.mem_cons.mp hp with hp | hp
        · exact ⟨v, by rw [hp, hv]⟩
        · exact ihnn p hp
      · rw [List.length_cons, ihlen, hcount, hv]
        simp
        omega

end EmbeddingsService

/-- Claim C10: for every non-empty list of texts, `generateEmbeddings`
(with its default batch size 100) returns a list of exactly the input's
length in which position `i` holds either the provider's embedding of
(the truncation of) `texts[i]` or `null`, and a batch that fails fills
all of its positions with `null` — position `i` is `null` exactly when
batch `i / 100` failed.  This positional alignment is what lets
`processContentEntries` pair each entry with its own embedding by index
before filtering out `null`s. -/
theorem generateEmbeddings_alignment {Emb : Type} (failB : Nat → Bool)
    (embedF : String → Emb) (maxTokens : Nat) (texts : List String)
    (h : texts ≠ []) :
    ∃ out : List (Option Emb),
      EmbeddingsService.generateEmbeddings failB embedF maxTokens texts 100 = Except.ok out
      ∧ out.length = texts.length
      ∧ ∀ i, i < texts.length →
          out[i]? = some (if failB (i / 100) then none
            else some (embedF (EmbeddingsService.truncateText (texts.getD i "") maxTokens))) := by
  have hne : ¬ texts.length = 0 := by
    have := List.length_pos.mpr h
    omega
  have hspec := EmbeddingsService.chunkedEmbeddings_spec embedF maxTokens 100 (by omega)
    texts.length texts failB le_rfl
  refine ⟨EmbeddingsService.chunkedEmbeddings failB embedF maxTokens 100 texts, ?_, hspec.1, hspec.2⟩
  unfold EmbeddingsService.generateEmbeddings
  rw [if_neg hne]

/-- Witness for C10: two texts in one batch with a never-failing provider
are both embedded, in order. -/
theorem generateEmbeddings_alignment_witness :
    ∃ out : List (Option Nat),
      EmbeddingsService.generateEmbeddings (fun _ => false) (fun s => s.length) 1
        ["ab", "cde"] 100 = Except.ok out
      ∧ out.length = (["ab", "cde"] : List String).length
      ∧ ∀ i, i < (["ab", "cde"] : List String).length →
          out[i]? = some (if (fun _ : Nat => false) (i / 100) then none
            else some ((fun s : String => s.length)
              (EmbeddingsService.truncateText ((["ab", "cde"] : List String).getD i "") 1))) :=
  generateEmbeddings_alignment (fun _ => false) (fun s => s.length) 1 ["ab", "cde"]
    (by decide)

/-- Claim C6: for every non-empty input list of records, the embedding
processor's output preserves the input order among surviving records (the
output records form a sublist of the input), every output record carries a
non-null embedding vector, the output retains exactly the records whose
batch did not fail (its length is the number of input positions whose
batch succeeded), and in particular with 10 input records in one failing
batch the output is strictly shorter than the input. -/
theorem processContentEntries_claim {α Emb : Type} (textOf : α → String)
    (failB : Nat → Bool) (embedF : String → Emb) (maxTokens : Nat)
    (entries : List α) (h : entries ≠ []) :
    ∃ out, EmbeddingsService.processContentEntries textOf failB embedF maxTokens entries
        = Except.ok out
      ∧ (out.map Prod.fst).Sublist entries
      ∧ (∀ p ∈ out, ∃ v, p.2 = some (some v))
      ∧ out.length = (List.range entries.length).countP (fun i => !failB (i / 100))
      ∧ (entries.length = 10 → failB 0 = true → out.length < entries.length) := by
  have hmapne : entries.map textOf ≠ [] := by
    intro hc
    exact h (List.map_eq_nil_iff.mp hc)
  have hne : ¬ (entries.map textOf).length = 0 := by
    have := List.length_pos.mpr hmapne
    omega
  have hspec := EmbeddingsService.chunkedEmbeddings_spec embedF maxTokens 100 (by omega)
    (entries.map textOf).length (entries.map textOf) failB le_rfl
  set embeddings := EmbeddingsService.chunkedEmbeddings failB embedF maxTokens 100
    (entries.map textOf) with hembdef
  set val : Nat → Option Emb := fun i =>
    if failB (i / 100) then none
    else some (embedF (EmbeddingsService.truncateText ((entries.map textOf).getD i "") maxTokens))
    with hvaldef
  have hval : ∀ j, j < entries.length → embeddings[0 + j]? = some (val (0 + j)) := by
    intro j hj
    rw [Nat.zero_add]
    exact hspec.2 j (by rwa [List.length_map])
  obtain ⟨hsub, hnn, hlen⟩ := EmbeddingsService.combineFilter_spec embeddings val entries 0 hval
  refine ⟨(EmbeddingsService.combineWithEmbeddings embeddings entries 0).filter
      (fun p => EmbeddingsService.notNull p.2), ?_, hsub, hnn, ?_, ?_⟩
  · unfold EmbeddingsService.processContentEntries EmbeddingsService.generateEmbeddings
    rw [if_neg hne]
  · rw [hlen]
    apply List.countP_congr
    intro j _
    rw [Nat.zero_add, hvaldef]
    cases hf : failB (j / 100) <;> simp [hf]
  · intro h10 hf
    rw [hlen]
    have hzero : (List.range entries.length).countP (fun j => (val (0 + j)).isSome) = 0 := by
      rw [List.countP_eq_zero]
      intro j hj
      rw [List.mem_range, h10] at hj
      rw [Nat.zero_add, hvaldef]
      simp [Nat.div_eq_of_lt (show j < 100 by omega), hf]
    rw [hzero, h10]
    omega

/-- Witness for C6: three records in one failing batch are all excluded
from the output. -/
theorem processContentEntries_claim_witness :
    ∃ out, EmbeddingsService.processContentEntries (fun n : Nat => toString n)
        (fun _ => true) (fun s : String => s.length) 1 [1, 2, 3] = Except.ok out
      ∧ (out.map Prod.fst).Sublist [1, 2, 3]
      ∧ (∀ p ∈ out, ∃ v, p.2 = some (some v))
      ∧ out.length = (List.range ([1, 2, 3] : List Nat).length).countP
          (fun i => !(fun _ : Nat => true) (i / 100))
      ∧ (([1, 2, 3] : List Nat).length = 10 → (fun _ : Nat => true) 0 = true →
          out.length < ([1, 2, 3] : List Nat).length) :=
  processContentEntries_claim (fun n : Nat => toString n) (fun _ => true)
    (fun s : String => s.length) 1 [1, 2, 3] (by decide)

/-- Claim C3: invoking `run()` while a run is already in flight
(`isRunning = true`) returns immediately without raising an error, does
not increment `stats.totalRuns`, leaves the whole job state unchanged,
makes no Contentstack call and no store upsert. -/
theorem run_concurrency_guard {Emb : Type} (env : SyncJob.SyncEnv Emb)
    (s : SyncJob.JobState) (h : s.isRunning = true) :
    SyncJob.run env s = (Except.ok (), s, [], false) := by
  unfold SyncJob.run
  simp [h]

/-- Witness for C3: the guard on a concrete in-flight state with a
concrete environment. -/
theorem run_concurrency_guard_witness :
    SyncJob.run SyncJob.stubEnv SyncJob.runningState
      = (Except.ok (), SyncJob.runningState, [], false) :=
  run_concurrency_guard SyncJob.stubEnv SyncJob.runningState rfl

/-- Claim C5: when the fetch phase of `run()` yields zero records, the
run returns without raising, `lastRunStatus` becomes `no_content`,
`stats.successfulRuns` is not incremented, and the store is untouched (no
upsert call is made). -/
theorem run_no_content {Emb : Type} (env : SyncJob.SyncEnv Emb) (s : SyncJob.JobState)
    (hrun : s.isRunning = false)
    (hfetch : (SyncJob.fetchContentFromContentstack env).1 = Except.ok []) :
    (SyncJob.run env s).1 = Except.ok ()
    ∧ (SyncJob.run env s).2.1.syncStats.lastRunStatus = some "no_content"
    ∧ (SyncJob.run env s).2.1.syncStats.successfulRuns = s.syncStats.successfulRuns
    ∧ (SyncJob.run env s).2.2.2 = false := by
  rcases hf : SyncJob.fetchContentFromContentstack env with ⟨res, calls⟩
  rw [hf] at hfetch
  simp only at hfetch
  subst hfetch
  unfold SyncJob.run
  rw [hrun, hf]
  simp

/-- Witness for C5: a source that reports a well-formed empty array makes
`run` end in `no_content` with the store untouched. -/
theorem run_no_content_witness :
    (SyncJob.run SyncJob.stubEnv SyncJob.idleState).1 = Except.ok ()
    ∧ (SyncJob.run SyncJob.stubEnv SyncJob.idleState).2.1.syncStats.lastRunStatus
        = some "no_content"
    ∧ (SyncJob.run SyncJob.stubEnv SyncJob.idleState).2.1.syncStats.successfulRuns
        = SyncJob.idleState.syncStats.successfulRuns
    ∧ (SyncJob.run SyncJob.stubEnv SyncJob.idleState).2.2.2 = false :=
  run_no_content SyncJob.stubEnv SyncJob.idleState rfl rfl

/-- Claim C4: when the primary fetch result fails validation, the run
invokes the fallback strategies in the fixed order (1) re-fetch with the
smaller page size 25, (2) re-fetch restricted to the single default locale
`"en-us"`, (3) re-fetch restricted to the priority content categories — or
the first three discovered categories when no priority name matches —
accepting the first strategy that yields a non-empty valid result; and if
all three strategies fail, the run ends with `lastRunStatus = no_content`
without raising an exception to the caller. -/
theorem run_fallback_ladder {Emb : Type} (env : SyncJob.SyncEnv Emb)
    (s : SyncJob.JobState) (raw : Option (List SyncJob.CEntry))
    (hrun : s.isRunning = false)
    (hprimary : env.getAllEntries env.locales 50 = Except.ok raw)
    (hinvalid : SyncJob.validateContentResponse raw = false) :
    (∀ all, env.contentTypes = Except.ok all →
      (all.filter (fun uid => (["blog_post", "page", "article", "product", "news"] : List String).contains uid) ≠ [] →
        SyncJob.getCoreContentTypes env
          = all.filter (fun uid => (["blog_post", "page", "article", "product", "news"] : List String).contains uid))
      ∧ (all.filter (fun uid => (["blog_post", "page", "article", "product", "news"] : List String).contains uid) = [] →
        SyncJob.getCoreContentTypes env = all.take 3))
    ∧ (∀ r1, env.getAllEntries env.locales 25 = Except.ok r1 →
        SyncJob.goodResult r1 = true →
        SyncJob.fetchContentFromContentstack env
          = (Except.ok (r1.getD []),
             [.getAll env.locales 50, .getAll env.locales 25]))
    ∧ (∀ r1 r2, env.getAllEntries env.locales 25 = Except.ok r1 →
        SyncJob.goodResult r1 = false →
        env.getAllEntries ["en-us"] 50 = Except.ok r2 →
        SyncJob.goodResult r2 = true →
        SyncJob.fetchContentFromContentstack env
          = (Except.ok (r2.getD []),
             [.getAll env.locales 50, .getAll env.locales 25, .getAll ["en-us"] 50]))
    ∧ (∀ r1 r2, env.getAllEntries env.locales 25 = Except.ok r1 →
        SyncJob.goodResult r1 = false →
        env.getAllEntries ["en-us"] 50 = Except.ok r2 →
        SyncJob.goodResult r2 = false →
        SyncJob.goodList (SyncJob.syncSpecificContentTypes env
          (SyncJob.getCoreContentTypes env) ["en-us"]) = true →
        SyncJob.fetchContentFromContentstack env
          = (Except.ok (SyncJob.syncSpecificContentTypes env
                (SyncJob.getCoreContentTypes env) ["en-us"]),
             [.getAll env.locales 50, .getAll env.locales 25, .getAll ["en-us"] 50,
              .byTypes (SyncJob.getCoreContentTypes env) ["en-us"]]))
    ∧ (∀ r1 r2, env.getAllEntries env.locales 25 = Except.ok r1 →
        SyncJob.goodResult r1 = false →
        env.getAllEntries ["en-us"] 50 = Except.ok r2 →
        SyncJob.goodResult r2 = false →
        SyncJob.goodList (SyncJob.syncSpecificContentTypes env
          (SyncJob.getCoreContentTypes env) ["en-us"]) = false →
        (SyncJob.run env s).1 = Except.ok ()
        ∧ (SyncJob.run env s).2.1.syncStats.lastRunStatus = some "no_content"
        ∧ (SyncJob.run env s).2.2.1
            = [.getAll env.locales 50, .getAll env.locales 25, .getAll ["en-us"] 50,
               .byTypes (SyncJob.getCoreContentTypes env) ["en-us"]]
        ∧ (SyncJob.run env s).2.2.2 = false) := by
  have hfetchInvalid : ∀ res calls,
      SyncJob.handlePartialSyncFailure env env.locales = (Except.ok res, calls) →
      SyncJob.fetchContentFromContentstack env
        = (Except.ok res, .getAll env.locales 50 :: calls) := by
    intro res calls hh
    unfold SyncJob.fetchContentFromContentstack
    rw [hprimary]
    simp only [hinvalid, Bool.false_eq_true, if_false]
    rw [hh]
  refine ⟨?_, ?_, ?_, ?_, ?_⟩
  · intro all hall
    constructor
    · intro hne
      unfold SyncJob.getCoreContentTypes
      rw [hall]
      exact if_neg hne
    · intro hempty
      unfold SyncJob.getCoreContentTypes
      rw [hall]
      exact if_pos hempty
  · intro r1 h1 hg1
    apply hfetchInvalid
    unfold SyncJob.handlePartialSyncFailure
    rw [h1]
    simp [hg1]
  · intro r1 r2 h1 hg1 h2 hg2
    apply hfetchInvalid
    unfold SyncJob.handlePartialSyncFailure
    rw [h1]
    simp only [hg1, Bool.false_eq_true, if_false]
    rw [h2]
    simp [hg2]
  · intro r1 r2 h1 hg1 h2 hg2 hg3
    apply hfetchInvalid
    unfold SyncJob.handlePartialSyncFailure
    rw [h1]
    simp only [hg1, Bool.false_eq_true, if_false]
    rw [h2]
    simp only [hg2, Bool.false_eq_true, if_false]
    simp [hg3]
  · intro r1 r2 h1 hg1 h2 hg2 hg3
    have hpsf : SyncJob.handlePartialSyncFailure env env.locales
        = (Except.ok [],
           [.getAll env.locales 25, .getAll ["en-us"] 50,
            .byTypes (SyncJob.getCoreContentTypes env) ["en-us"]]) := by
      unfold SyncJob.handlePartialSyncFailure
      rw [h1]
      simp only [hg1, Bool.false_eq_true, if_false]
      rw [h2]
      simp only [hg2, Bool.false_eq_true, if_false]
      simp [hg3]
    have hfetch := hfetchInvalid _ _ hpsf
    unfold SyncJob.run
    rw [hrun, hfetch]
    simp

/-- Witness for C4: with a source that always returns a malformed
(non-array) payload and reports no content types, every strategy fails
and the run ends in `no_content` after the full ladder. -/
theorem run_fallback_ladder_witness :
    (SyncJob.run SyncJob.malformedEnv SyncJob.idleState).1 = Except.ok ()
    ∧ (SyncJob.run SyncJob.malformedEnv SyncJob.idleState).2.1.syncStats.lastRunStatus
        = some "no_content"
    ∧ (SyncJob.run SyncJob.malformedEnv SyncJob.idleState).2.2.1
        = [.getAll SyncJob.malformedEnv.locales 50,
           .getAll SyncJob.malformedEnv.locales 25, .getAll ["en-us"] 50,
           .byTypes (SyncJob.getCoreContentTypes SyncJob.malformedEnv) ["en-us"]]
    ∧ (SyncJob.run SyncJob.malformedEnv SyncJob.idleState).2.2.2 = false :=
  (run_fallback_ladder SyncJob.malformedEnv SyncJob.idleState none rfl rfl rfl).2.2.2.2
    none none rfl rfl rfl rfl rfl
